import Mathlib

/-!
Verification of the fusa-calc reliability core.

This file gives a shallow embedding of the numeric core of the repository
(`src/sifu_core/models.py`, `src/sifu_core/engine.py`,
`src/sifu_core/conversions.py`, and the aggregation / SIL-classification
helpers of `src/sifu_gui.py`) and proves the spec's claims about it.

Numbers: the Python source computes with IEEE floats; the embedding uses `ℚ`,
so every algebraic identity is exact.  Exceptions are modelled with `Except`;
`ConversionError` messages are abstracted to an error-kind enumeration, since
no claim depends on message texts.
-/

namespace FusaCalc

/-- Embedding of `sifu_core.models.Assumptions` (frozen dataclass). -/
structure Assumptions where
  TI : ℚ
  MTTR : ℚ
  beta : ℚ
  beta_D : ℚ
deriving DecidableEq

/-- Embedding of `sifu_core.models.ChannelMetrics` (frozen dataclass). -/
structure ChannelMetrics where
  lambda_total : ℚ
  lambda_du : ℚ
  lambda_dd : ℚ
  pfd : ℚ
  pfh : ℚ
deriving DecidableEq

/-- Embedding of `sifu_core.engine._split_lambda`.  The `ValueError` raised on
`du_ratio + dd_ratio <= 0` is the `.error` case. -/
def split_lambda (lambda_total du_ratio dd_ratio : ℚ) : Except Unit (ℚ × ℚ) :=
  let total_ratio := du_ratio + dd_ratio
  if total_ratio ≤ 0 then
    .error ()
  else
    let du_fraction := du_ratio / total_ratio
    let dd_fraction := dd_ratio / total_ratio
    .ok (lambda_total * du_fraction, lambda_total * dd_fraction)

/-- Embedding of `sifu_core.engine.calculate_single_channel`. -/
def calculate_single_channel (lambda_total du_ratio dd_ratio : ℚ)
    (assumptions : Assumptions) : Except Unit ChannelMetrics :=
  match split_lambda lambda_total du_ratio dd_ratio with
  | .error e => .error e
  | .ok (lam_du, lam_dd) =>
      let ti := assumptions.TI
      let mttr := assumptions.MTTR
      .ok { lambda_total := lambda_total
            lambda_du := lam_du
            lambda_dd := lam_dd
            pfd := lam_du * (ti / 2 + mttr) + lam_dd * mttr
            pfh := lam_du }

/-- Embedding of `sifu_core.engine.calculate_one_out_of_two`. -/
def calculate_one_out_of_two (lambda_totals : List ℚ) (du_ratio dd_ratio : ℚ)
    (assumptions : Assumptions) : Except Unit ChannelMetrics :=
  let total_lambda := lambda_totals.sum
  match split_lambda total_lambda du_ratio dd_ratio with
  | .error e => .error e
  | .ok (lam_du_total, lam_dd_total) =>
      let beta := assumptions.beta
      let beta_d := assumptions.beta_D
      let ti := assumptions.TI
      let mttr := assumptions.MTTR
      let lam_du_ind := (1 - beta) * lam_du_total
      let lam_dd_ind := (1 - beta_d) * lam_dd_total
      let lam_d_ind := lam_du_ind + lam_dd_ind
      let ind :=
        if 0 < lam_d_ind then
          let w_du := lam_du_ind / lam_d_ind
          let w_dd := lam_dd_ind / lam_d_ind
          let t_ce := w_du * (ti / 2 + mttr) + w_dd * mttr
          let t_ge := w_du * (ti / 3 + mttr) + w_dd * mttr
          (2 * lam_d_ind ^ 2 * t_ce * t_ge, 2 * lam_d_ind * lam_du_ind * t_ce)
        else
          (0, 0)
      let pfd_du_ccf := beta * lam_du_total * (ti / 2 + mttr)
      let pfd_dd_ccf := beta_d * lam_dd_total * mttr
      let pfh_ccf := beta * lam_du_total
      .ok { lambda_total := total_lambda
            lambda_du := lam_du_total
            lambda_dd := lam_dd_total
            pfd := ind.1 + pfd_du_ccf + pfd_dd_ccf
            pfh := ind.2 + pfh_ccf }

/-- C3: `calculate_single_channel` postcondition.  For every `lambda_total`,
assumptions, and ratios with `du_ratio + dd_ratio > 0`, the result has
`lambda_du = lambda_total * du_ratio / (du_ratio + dd_ratio)`,
`lambda_dd = lambda_total * dd_ratio / (du_ratio + dd_ratio)`,
`pfd = lambda_du * (TI/2 + MTTR) + lambda_dd * MTTR`, and `pfh = lambda_du`. -/
theorem calculate_single_channel_spec (lambda_total du_ratio dd_ratio : ℚ)
    (a : Assumptions) (h : 0 < du_ratio + dd_ratio) :
    calculate_single_channel lambda_total du_ratio dd_ratio a =
      .ok { lambda_total := lambda_total
            lambda_du := lambda_total * du_ratio / (du_ratio + dd_ratio)
            lambda_dd := lambda_total * dd_ratio / (du_ratio + dd_ratio)
            pfd := lambda_total * du_ratio / (du_ratio + dd_ratio) * (a.TI / 2 + a.MTTR)
                    + lambda_total * dd_ratio / (du_ratio + dd_ratio) * a.MTTR
            pfh := lambda_total * du_ratio / (du_ratio + dd_ratio) } := by
  unfold calculate_single_channel split_lambda
  rw [if_neg (not_le.mpr h)]
  simp only [Except.ok.injEq, ChannelMetrics.mk.injEq, mul_div_assoc]

/-- Witness for C3 at a concrete input. -/
theorem calculate_single_channel_spec_witness :
    (0 : ℚ) < 3 / 5 + 2 / 5 ∧
      calculate_single_channel 10 (3 / 5) (2 / 5) ⟨100, 4, 0, 0⟩ =
        .ok { lambda_total := 10
              lambda_du := 10 * (3 / 5) / (3 / 5 + 2 / 5)
              lambda_dd := 10 * (2 / 5) / (3 / 5 + 2 / 5)
              pfd := 10 * (3 / 5) / (3 / 5 + 2 / 5) * ((100 : ℚ) / 2 + 4)
                      + 10 * (2 / 5) / (3 / 5 + 2 / 5) * 4
              pfh := 10 * (3 / 5) / (3 / 5 + 2 / 5) } :=
  ⟨by norm_num, calculate_single_channel_spec 10 (3 / 5) (2 / 5) ⟨100, 4, 0, 0⟩ (by norm_num)⟩

/-- C8: both channel calculators raise `ValueError` if and only if
`du_ratio + dd_ratio ≤ 0`, and no partial `ChannelMetrics` is produced in
that case (the `Except` result is the error, not a value). -/
theorem ratio_guard_value_error (lambda_total du_ratio dd_ratio : ℚ)
    (lambda_totals : List ℚ) (a : Assumptions) :
    (calculate_single_channel lambda_total du_ratio dd_ratio a = .error () ↔
        du_ratio + dd_ratio ≤ 0) ∧
    (calculate_one_out_of_two lambda_totals du_ratio dd_ratio a = .error () ↔
        du_ratio + dd_ratio ≤ 0) := by
  constructor
  · simp only [calculate_single_channel, split_lambda]
    by_cases hle : du_ratio + dd_ratio ≤ 0 <;> simp [hle]
  · simp only [calculate_one_out_of_two, split_lambda]
    by_cases hle : du_ratio + dd_ratio ≤ 0 <;> simp [hle]

/-- C9: `calculate_one_out_of_two` is invariant under permutation of its
`lambda_totals` list (it depends on the list only through its sum). -/
theorem one_out_of_two_perm_invariant (l l' : List ℚ) (hp : l.Perm l')
    (du_ratio dd_ratio : ℚ) (a : Assumptions) :
    calculate_one_out_of_two l du_ratio dd_ratio a =
      calculate_one_out_of_two l' du_ratio dd_ratio a := by
  unfold calculate_one_out_of_two
  rw [hp.sum_eq]

/-- Witness for C9 at a concrete permutation. -/
theorem one_out_of_two_perm_invariant_witness :
    ([1, 2] : List ℚ).Perm [2, 1] ∧
      calculate_one_out_of_two [1, 2] 1 1 ⟨6, 0, 0, 0⟩ =
        calculate_one_out_of_two [2, 1] 1 1 ⟨6, 0, 0, 0⟩ :=
  have hp : ([1, 2] : List ℚ).Perm [2, 1] := List.Perm.swap 2 1 []
  ⟨hp, one_out_of_two_perm_invariant _ _ hp 1 1 _⟩

/-- C2: `calculate_one_out_of_two` postcondition.  With
`du_ratio + dd_ratio > 0`, the result carries the beta-model formulas of the
spec: the lambdas are the ratio-split totals; if `lambda_d_ind > 0` the
independent contributions use the exposure times `t_CE`, `t_GE`, else they are
`0`; the common-cause terms are always added. -/
theorem calculate_one_out_of_two_spec (lambda_totals : List ℚ)
    (du_ratio dd_ratio : ℚ) (a : Assumptions) (h : 0 < du_ratio + dd_ratio) :
    calculate_one_out_of_two lambda_totals du_ratio dd_ratio a =
      (let lambda_sum := lambda_totals.sum
       let lambda_du_total := lambda_sum * du_ratio / (du_ratio + dd_ratio)
       let lambda_dd_total := lambda_sum * dd_ratio / (du_ratio + dd_ratio)
       let lambda_du_ind := (1 - a.beta) * lambda_du_total
       let lambda_dd_ind := (1 - a.beta_D) * lambda_dd_total
       let lambda_d_ind := lambda_du_ind + lambda_dd_ind
       let w_du := lambda_du_ind / lambda_d_ind
       let w_dd := lambda_dd_ind / lambda_d_ind
       let t_CE := w_du * (a.TI / 2 + a.MTTR) + w_dd * a.MTTR
       let t_GE := w_du * (a.TI / 3 + a.MTTR) + w_dd * a.MTTR
       let pfd_ind := if 0 < lambda_d_ind then 2 * lambda_d_ind ^ 2 * t_CE * t_GE else 0
       let pfh_ind := if 0 < lambda_d_ind then 2 * lambda_d_ind * lambda_du_ind * t_CE else 0
       let pfd_ccf := a.beta * lambda_du_total * (a.TI / 2 + a.MTTR)
                        + a.beta_D * lambda_dd_total * a.MTTR
       let pfh_ccf := a.beta * lambda_du_total
       .ok { lambda_total := lambda_sum
             lambda_du := lambda_du_total
             lambda_dd := lambda_dd_total
             pfd := pfd_ind + pfd_ccf
             pfh := pfh_ind + pfh_ccf }) := by
  simp only [calculate_one_out_of_two, split_lambda]
  rw [if_neg (not_le.mpr h)]
  simp only [mul_div_assoc]
  split_ifs with hpos <;>
    · simp only [Except.ok.injEq, ChannelMetrics.mk.injEq]
      refine ⟨trivial, trivial, trivial, by ring, by ring⟩

/-- Witness for C2 at a concrete input. -/
theorem calculate_one_out_of_two_spec_witness :
    (0 : ℚ) < 1 + 1 ∧
      calculate_one_out_of_two [1] 1 1 ⟨2, 1, 1 / 10, 1 / 50⟩ =
        (let lambda_sum := ([1] : List ℚ).sum
         let a : Assumptions := ⟨2, 1, 1 / 10, 1 / 50⟩
         let lambda_du_total := lambda_sum * 1 / (1 + 1)
         let lambda_dd_total := lambda_sum * 1 / (1 + 1)
         let lambda_du_ind := (1 - a.beta) * lambda_du_total
         let lambda_dd_ind := (1 - a.beta_D) * lambda_dd_total
         let lambda_d_ind := lambda_du_ind + lambda_dd_ind
         let w_du := lambda_du_ind / lambda_d_ind
         let w_dd := lambda_dd_ind / lambda_d_ind
         let t_CE := w_du * (a.TI / 2 + a.MTTR) + w_dd * a.MTTR
         let t_GE := w_du * (a.TI / 3 + a.MTTR) + w_dd * a.MTTR
         let pfd_ind := if 0 < lambda_d_ind then 2 * lambda_d_ind ^ 2 * t_CE * t_GE else 0
         let pfh_ind := if 0 < lambda_d_ind then 2 * lambda_d_ind * lambda_du_ind * t_CE else 0
         let pfd_ccf := a.beta * lambda_du_total * (a.TI / 2 + a.MTTR)
                          + a.beta_D * lambda_dd_total * a.MTTR
         let pfh_ccf := a.beta * lambda_du_total
         .ok { lambda_total := lambda_sum
               lambda_du := lambda_du_total
               lambda_dd := lambda_dd_total
               pfd := pfd_ind + pfd_ccf
               pfh := pfh_ind + pfh_ccf }) :=
  ⟨by norm_num, calculate_one_out_of_two_spec [1] 1 1 ⟨2, 1, 1 / 10, 1 / 50⟩ (by norm_num)⟩

/-- A Python value stored under one of the reliability keys of a raw
component record.  `_optional_float` distinguishes exactly these behaviour
classes: key absent, `None`, a blank string (both count as absent), a numeric
value (int/float/bool or a numeric string), or a value `float()` rejects. -/
inductive FieldVal
  | missing
  | null
  | blank
  | num (q : ℚ)
  | malformed
deriving DecidableEq

/-- Embedding of the reliability-relevant keys of a raw component record (the
`raw` mapping read by `sifu_core.conversions.compute_lambda_total`).  The
label keys (`code`/`name`/`title`, `source`/`origin`/`kind`) only feed
error-message texts and are not modelled, since messages are abstracted. -/
structure RawRecord where
  lambda_du : FieldVal := .missing
  lambda_dd : FieldVal := .missing
  lambda_total : FieldVal := .missing
  lambda_legacy : FieldVal := .missing
  pfd : FieldVal := .missing
  pfd_avg : FieldVal := .missing
  pfh : FieldVal := .missing
  pfh_avg : FieldVal := .missing
deriving DecidableEq

/-- The distinct `ConversionError` raise sites of `sifu_core.conversions`
(message texts abstracted to kinds). -/
inductive ConvError
  | unsupported_mode
  | missing_du_dd_pair
  | negative_du_dd
  | negative_lambda_total
  | missing_pfh
  | negative_pfh
  | missing_pfd
  | negative_pfd
  | non_positive_ti
  | invalid_numeric
deriving DecidableEq

/-- Embedding of `sifu_core.conversions._optional_float`. -/
def optional_float : FieldVal → Except ConvError (Option ℚ)
  | .missing => .ok none
  | .null => .ok none
  | .blank => .ok none
  | .num q => .ok (some q)
  | .malformed => .error .invalid_numeric

/-- Exception-propagating sequencing: a raise in an earlier statement aborts
everything after it. -/
def orRaise (x : Except ConvError (Option ℚ))
    (f : Option ℚ → Except ConvError (ℚ × String)) : Except ConvError (ℚ × String) :=
  match x with
  | .error e => .error e
  | .ok v => f v

/-- Embedding of the alias pattern in `compute_lambda_total`:
`_optional_float(raw, "pfh", ...)` followed by `_optional_float(raw,
"pfh_avg", ...)` only when the first yields `None` (same for `pfd`). -/
def resolve_alias (primary secondary : FieldVal) : Except ConvError (Option ℚ) :=
  match optional_float primary with
  | .error e => .error e
  | .ok (some p) => .ok (some p)
  | .ok none => optional_float secondary

/-- Embedding of `sifu_core.conversions.compute_lambda_total`.  The reads
happen in source order: the four lambda keys up front, the PFH/PFD aliases
only after the native branches fall through. -/
def compute_lambda_total (raw : RawRecord) (demand_mode : String)
    (a : Assumptions) : Except ConvError (ℚ × String) :=
  if demand_mode ≠ "low_demand" ∧ demand_mode ≠ "high_demand" then
    .error .unsupported_mode
  else
    orRaise (optional_float raw.lambda_du) fun lambda_du =>
    orRaise (optional_float raw.lambda_dd) fun lambda_dd =>
    orRaise (optional_float raw.lambda_total) fun lambda_total =>
    orRaise (optional_float raw.lambda_legacy) fun lambda_legacy =>
    if lambda_du.isSome ∨ lambda_dd.isSome then
      match lambda_du, lambda_dd with
      | some du, some dd =>
          if du < 0 ∨ dd < 0 then .error .negative_du_dd
          else .ok (du + dd, "native")
      | _, _ => .error .missing_du_dd_pair
    else
      match lambda_total.orElse fun _ => lambda_legacy with
      | some candidate =>
          if candidate < 0 then .error .negative_lambda_total
          else .ok (candidate, "native")
      | none =>
          orRaise (resolve_alias raw.pfh raw.pfh_avg) fun pfh =>
          orRaise (resolve_alias raw.pfd raw.pfd_avg) fun pfd =>
          if demand_mode = "high_demand" then
            match pfh with
            | none => .error .missing_pfh
            | some p =>
                if p < 0 then .error .negative_pfh
                else .ok (p, "derived_from_pfh")
          else
            match pfd with
            | none => .error .missing_pfd
            | some p =>
                if p < 0 then .error .negative_pfd
                else if a.TI ≤ 0 then .error .non_positive_ti
                else .ok (2 * p / a.TI, "derived_from_pfd")

/-- Value a well-formed field resolves to: numeric values are present;
`None` and blank strings count the same as an absent key. -/
def FieldVal.resolved : FieldVal → Option ℚ
  | .num q => some q
  | _ => none

/-- A record is well-formed when no field holds a value `float()` rejects;
this is exactly the spec's `ComponentRecord` data model (optional numeric
fields, with `None`/blank spellings of absence). -/
def RawRecord.wellFormed (r : RawRecord) : Prop :=
  r.lambda_du ≠ .malformed ∧ r.lambda_dd ≠ .malformed ∧
  r.lambda_total ≠ .malformed ∧ r.lambda_legacy ≠ .malformed ∧
  r.pfd ≠ .malformed ∧ r.pfd_avg ≠ .malformed ∧
  r.pfh ≠ .malformed ∧ r.pfh_avg ≠ .malformed

instance (r : RawRecord) : Decidable r.wellFormed := by
  unfold RawRecord.wellFormed; infer_instance

/-- Combined lambda after the source's candidate order (`lambda_total` first,
then the legacy key `lambda`). -/
def RawRecord.combined_resolved (r : RawRecord) : Option ℚ :=
  r.lambda_total.resolved.orElse fun _ => r.lambda_legacy.resolved

/-- PFH datum after alias resolution (`pfh` falling back to `pfh_avg`). -/
def RawRecord.pfh_resolved (r : RawRecord) : Option ℚ :=
  r.pfh.resolved.orElse fun _ => r.pfh_avg.resolved

/-- PFD datum after alias resolution (`pfd` falling back to `pfd_avg`). -/
def RawRecord.pfd_resolved (r : RawRecord) : Option ℚ :=
  r.pfd.resolved.orElse fun _ => r.pfd_avg.resolved

/-- No native lambda data at all: neither DU/DD nor a combined lambda. -/
def RawRecord.no_native_lambda (r : RawRecord) : Prop :=
  r.lambda_du.resolved = none ∧ r.lambda_dd.resolved = none ∧
  r.combined_resolved = none

theorem optional_float_wf {f : FieldVal} (h : f ≠ .malformed) :
    optional_float f = .ok f.resolved := by
  cases f <;> first | rfl | exact absurd rfl h

theorem resolve_alias_wf {p s : FieldVal} (hp : p ≠ .malformed)
    (hs : s ≠ .malformed) :
    resolve_alias p s = .ok (p.resolved.orElse fun _ => s.resolved) := by
  cases p <;> cases s <;>
    first | rfl | exact absurd rfl hp | exact absurd rfl hs

/-- On a well-formed record, `compute_lambda_total` reduces to its branch
structure over the resolved optional values. -/
theorem compute_lambda_total_wf (r : RawRecord) (mode : String)
    (a : Assumptions) (hwf : r.wellFormed) :
    compute_lambda_total r mode a =
      if mode ≠ "low_demand" ∧ mode ≠ "high_demand" then
        .error .unsupported_mode
      else if r.lambda_du.resolved.isSome ∨ r.lambda_dd.resolved.isSome then
        match r.lambda_du.resolved, r.lambda_dd.resolved with
        | some du, some dd =>
            if du < 0 ∨ dd < 0 then .error .negative_du_dd
            else .ok (du + dd, "native")
        | _, _ => .error .missing_du_dd_pair
      else
        match r.combined_resolved with
        | some candidate =>
            if candidate < 0 then .error .negative_lambda_total
            else .ok (candidate, "native")
        | none =>
            if mode = "high_demand" then
              match r.pfh_resolved with
              | none => .error .missing_pfh
              | some p =>
                  if p < 0 then .error .negative_pfh
                  else .ok (p, "derived_from_pfh")
            else
              match r.pfd_resolved with
              | none => .error .missing_pfd
              | some p =>
                  if p < 0 then .error .negative_pfd
                  else if a.TI ≤ 0 then .error .non_positive_ti
                  else .ok (2 * p / a.TI, "derived_from_pfd") := by
  obtain ⟨h1, h2, h3, h4, h5, h6, h7, h8⟩ := hwf
  unfold compute_lambda_total RawRecord.combined_resolved
    RawRecord.pfh_resolved RawRecord.pfd_resolved
  rw [optional_float_wf h1, optional_float_wf h2, optional_float_wf h3,
    optional_float_wf h4, resolve_alias_wf h7 h8, resolve_alias_wf h5 h6]
  rfl

/-- C4: resolution order of `compute_lambda_total` (first match wins) over
well-formed records.  If DU/DD are both present and non-negative the result
is their sum with provenance `"native"`; otherwise a present non-negative
combined lambda (`lambda_total`, then legacy `lambda`) is returned as-is with
provenance `"native"`; otherwise `high_demand` returns a non-negative
PFH/PFH-avg directly as `"derived_from_pfh"`, and `low_demand` with
non-negative PFD/PFD-avg and `TI > 0` returns `2 * PFD / TI` as
`"derived_from_pfd"`. -/
theorem compute_lambda_total_resolution_order (r : RawRecord) (mode : String)
    (a : Assumptions) (hwf : r.wellFormed)
    (hmode : mode = "low_demand" ∨ mode = "high_demand") :
    (∀ du dd : ℚ, r.lambda_du.resolved = some du →
        r.lambda_dd.resolved = some dd → 0 ≤ du → 0 ≤ dd →
        compute_lambda_total r mode a = .ok (du + dd, "native")) ∧
    (r.lambda_du.resolved = none → r.lambda_dd.resolved = none →
        ∀ t : ℚ, r.combined_resolved = some t → 0 ≤ t →
        compute_lambda_total r mode a = .ok (t, "native")) ∧
    (r.no_native_lambda →
        ((mode = "high_demand" → ∀ p : ℚ, r.pfh_resolved = some p → 0 ≤ p →
            compute_lambda_total r mode a = .ok (p, "derived_from_pfh")) ∧
         (mode = "low_demand" → ∀ p : ℚ, r.pfd_resolved = some p → 0 ≤ p →
            0 < a.TI →
            compute_lambda_total r mode a = .ok (2 * p / a.TI, "derived_from_pfd")))) := by
  have hmode' : ¬(mode ≠ "low_demand" ∧ mode ≠ "high_demand") := by
    rcases hmode with h | h <;> simp [h]
  rw [compute_lambda_total_wf r mode a hwf, if_neg hmode']
  refine ⟨?_, ?_, ?_⟩
  · intro du dd hdu hdd hdu0 hdd0
    rw [hdu, hdd]
    simp [not_lt.mpr hdu0, not_lt.mpr hdd0]
  · intro hdu hdd t hc ht0
    rw [hdu, hdd, hc]
    simp [not_lt.mpr ht0]
  · rintro ⟨hdu, hdd, hc⟩
    rw [hdu, hdd, hc]
    constructor
    · intro hm p hp hp0
      subst hm
      rw [hp]
      simp [not_lt.mpr hp0]
    · intro hm p hp hp0 hti
      subst hm
      rw [hp]
      simp [not_lt.mpr hp0, not_le.mpr hti]

/-- Witness for C4: a record carrying native DU/DD resolves to their sum. -/
theorem compute_lambda_total_resolution_order_witness :
    ({ lambda_du := .num 3, lambda_dd := .num 4 } : RawRecord).wellFormed ∧
      compute_lambda_total { lambda_du := .num 3, lambda_dd := .num 4 }
        "low_demand" ⟨8760, 8, 1 / 10, 1 / 50⟩ = .ok (3 + 4, "native") :=
  ⟨by decide,
    (compute_lambda_total_resolution_order
        { lambda_du := .num 3, lambda_dd := .num 4 } "low_demand"
        ⟨8760, 8, 1 / 10, 1 / 50⟩ (by decide) (Or.inl rfl)).1
      3 4 rfl rfl (by norm_num) (by norm_num)⟩

/-- The failure cases claimed by the spec for `compute_lambda_total`, written
from the spec's list: an unsupported demand mode; `lambda_du` present without
`lambda_dd` (or vice versa); a value reached in resolution order that is
negative; the demand-mode-specific source datum absent when no native lambda
data exists; or `TI ≤ 0` while deriving from PFD. -/
def claimed_conversion_failure (r : RawRecord) (mode : String)
    (a : Assumptions) : Prop :=
  (mode ≠ "low_demand" ∧ mode ≠ "high_demand")
  ∨ (r.lambda_du.resolved.isSome ∧ r.lambda_dd.resolved = none)
  ∨ (r.lambda_du.resolved = none ∧ r.lambda_dd.resolved.isSome)
  ∨ (∃ du dd : ℚ, r.lambda_du.resolved = some du ∧
      r.lambda_dd.resolved = some dd ∧ (du < 0 ∨ dd < 0))
  ∨ (r.lambda_du.resolved = none ∧ r.lambda_dd.resolved = none ∧
      ∃ t : ℚ, r.combined_resolved = some t ∧ t < 0)
  ∨ (r.no_native_lambda ∧ mode = "high_demand" ∧
      (r.pfh_resolved = none ∨ ∃ p : ℚ, r.pfh_resolved = some p ∧ p < 0))
  ∨ (r.no_native_lambda ∧ mode = "low_demand" ∧
      (r.pfd_resolved = none ∨ (∃ p : ℚ, r.pfd_resolved = some p ∧ p < 0) ∨
        (∃ p : ℚ, r.pfd_resolved = some p ∧ 0 ≤ p ∧ a.TI ≤ 0)))

/-- C5: on the spec's record data model (well-formed records),
`compute_lambda_total` raises a `ConversionError` exactly in the cases the
spec lists, and returns a value for every other input.  The embedding is a
pure function, so freedom from side effects is inherent. -/
theorem compute_lambda_total_error_iff (r : RawRecord) (mode : String)
    (a : Assumptions) (hwf : r.wellFormed) :
    (∃ e, compute_lambda_total r mode a = .error e) ↔
      claimed_conversion_failure r mode a := by
  have hsl : ("high_demand" : String) ≠ "low_demand" := by decide
  have hsh : ("low_demand" : String) ≠ "high_demand" := by decide
  rw [compute_lambda_total_wf r mode a hwf]
  unfold claimed_conversion_failure RawRecord.no_native_lambda
  by_cases hm : mode ≠ "low_demand" ∧ mode ≠ "high_demand"
  · simp [hm]
  · rw [if_neg hm]
    rcases hdu : r.lambda_du.resolved with _ | du <;>
      rcases hdd : r.lambda_dd.resolved with _ | dd
    · rcases hc : r.combined_resolved with _ | t
      · by_cases hmh : mode = "high_demand"
        · subst hmh
          rcases hph : r.pfh_resolved with _ | p
          · simp [hdu, hdd, hc, hph, hm, hsl]
          · by_cases hpneg : p < 0
            · simp [hdu, hdd, hc, hph, hpneg, hm, hsl]
            · simp [hdu, hdd, hc, hph, hpneg, hm, hsl]
        · have hml : mode = "low_demand" := by
            rcases not_and_or.mp hm with h | h
            · exact not_not.mp h
            · exact absurd (not_not.mp h) hmh
          subst hml
          rcases hpd : r.pfd_resolved with _ | p
          · simp [hdu, hdd, hc, hpd, hm, hsh]
          · by_cases hpneg : p < 0
            · simp [hdu, hdd, hc, hpd, hpneg, hm, hsh]
            · by_cases hti : a.TI ≤ 0
              · simp [hdu, hdd, hc, hpd, hpneg, hti, hm, hsh, not_lt.mp hpneg]
              · simp [hdu, hdd, hc, hpd, hpneg, hti, hm, hsh]
      · by_cases hneg : t < 0
        · simp [hdu, hdd, hc, hneg, hm]
        · simp [hdu, hdd, hc, hneg, hm]
    · simp [hdu, hdd, hm]
    · simp [hdu, hdd, hm]
    · by_cases hneg : du < 0 ∨ dd < 0
      · simp [hdu, hdd, hneg, hm]
      · simp [hdu, hdd, hneg, hm]

/-- Witness for C5: the empty record in low-demand mode raises (missing PFD),
matching the claimed case list. -/
theorem compute_lambda_total_error_iff_witness :
    ({} : RawRecord).wellFormed ∧
      ((∃ e, compute_lambda_total {} "low_demand" ⟨8760, 8, 1 / 10, 1 / 50⟩ = .error e) ↔
        claimed_conversion_failure {} "low_demand" ⟨8760, 8, 1 / 10, 1 / 50⟩) :=
  ⟨by decide,
    compute_lambda_total_error_iff {} "low_demand" ⟨8760, 8, 1 / 10, 1 / 50⟩ (by decide)⟩

/-- Embedding of `sifu_gui.classify_sil_from_pfh`; the float literals `1e-9`
etc. are the exact rationals `1 / 10 ^ 9` etc. -/
def classify_sil_from_pfh (pfh_sum : ℚ) : String :=
  if 1 / 10 ^ 9 ≤ pfh_sum ∧ pfh_sum < 1 / 10 ^ 8 then "SIL 4"
  else if 1 / 10 ^ 8 ≤ pfh_sum ∧ pfh_sum < 1 / 10 ^ 7 then "SIL 3"
  else if 1 / 10 ^ 7 ≤ pfh_sum ∧ pfh_sum < 1 / 10 ^ 6 then "SIL 2"
  else if 1 / 10 ^ 6 ≤ pfh_sum ∧ pfh_sum < 1 / 10 ^ 5 then "SIL 1"
  else "n.a."

/-- Embedding of `sifu_gui.classify_sil_from_pfd`. -/
def classify_sil_from_pfd (pfd_sum : ℚ) : String :=
  if 1 / 10 ^ 5 ≤ pfd_sum ∧ pfd_sum < 1 / 10 ^ 4 then "SIL 4"
  else if 1 / 10 ^ 4 ≤ pfd_sum ∧ pfd_sum < 1 / 10 ^ 3 then "SIL 3"
  else if 1 / 10 ^ 3 ≤ pfd_sum ∧ pfd_sum < 1 / 10 ^ 2 then "SIL 2"
  else if 1 / 10 ^ 2 ≤ pfd_sum ∧ pfd_sum < 1 / 10 then "SIL 1"
  else "n.a."

/-- C7: the SIL classification bands, as if-and-only-if characterisations,
with `n.a.` exactly outside the union of the four bands, and each lower
boundary belonging to the better SIL. -/
theorem classify_sil_bands (x : ℚ) :
    (classify_sil_from_pfh x = "SIL 4" ↔ 1 / 10 ^ 9 ≤ x ∧ x < 1 / 10 ^ 8) ∧
    (classify_sil_from_pfh x = "SIL 3" ↔ 1 / 10 ^ 8 ≤ x ∧ x < 1 / 10 ^ 7) ∧
    (classify_sil_from_pfh x = "SIL 2" ↔ 1 / 10 ^ 7 ≤ x ∧ x < 1 / 10 ^ 6) ∧
    (classify_sil_from_pfh x = "SIL 1" ↔ 1 / 10 ^ 6 ≤ x ∧ x < 1 / 10 ^ 5) ∧
    (classify_sil_from_pfh x = "n.a." ↔ ¬(1 / 10 ^ 9 ≤ x ∧ x < 1 / 10 ^ 5)) ∧
    (classify_sil_from_pfd x = "SIL 4" ↔ 1 / 10 ^ 5 ≤ x ∧ x < 1 / 10 ^ 4) ∧
    (classify_sil_from_pfd x = "SIL 3" ↔ 1 / 10 ^ 4 ≤ x ∧ x < 1 / 10 ^ 3) ∧
    (classify_sil_from_pfd x = "SIL 2" ↔ 1 / 10 ^ 3 ≤ x ∧ x < 1 / 10 ^ 2) ∧
    (classify_sil_from_pfd x = "SIL 1" ↔ 1 / 10 ^ 2 ≤ x ∧ x < 1 / 10) ∧
    (classify_sil_from_pfd x = "n.a." ↔ ¬(1 / 10 ^ 5 ≤ x ∧ x < 1 / 10)) ∧
    classify_sil_from_pfh (1 / 10 ^ 9) = "SIL 4" ∧
    classify_sil_from_pfh (1 / 10 ^ 8) = "SIL 3" ∧
    classify_sil_from_pfd (1 / 10 ^ 5) = "SIL 4" ∧
    classify_sil_from_pfd (1 / 10 ^ 4) = "SIL 3" := by
  refine ⟨?_, ?_, ?_, ?_, ?_, ?_, ?_, ?_, ?_, ?_, ?_, ?_, ?_, ?_⟩
  · unfold classify_sil_from_pfh
    split_ifs with h1 h2 h3 h4
    · exact iff_of_true rfl h1
    · exact iff_of_false (by decide) h1
    · exact iff_of_false (by decide) h1
    · exact iff_of_false (by decide) h1
    · exact iff_of_false (by decide) h1
  · unfold classify_sil_from_pfh
    split_ifs with h1 h2 h3 h4
    · refine iff_of_false (by decide) ?_
      rintro ⟨hle, -⟩
      exact absurd hle (not_le.mpr h1.2)
    · exact iff_of_true rfl h2
    · exact iff_of_false (by decide) h2
    · exact iff_of_false (by decide) h2
    · exact iff_of_false (by decide) h2
  · unfold classify_sil_from_pfh
    split_ifs with h1 h2 h3 h4
    · refine iff_of_false (by decide) ?_
      rintro ⟨hle, -⟩
      rcases h1 with ⟨-, hlt⟩
      linarith
    · refine iff_of_false (by decide) ?_
      rintro ⟨hle, -⟩
      exact absurd hle (not_le.mpr h2.2)
    · exact iff_of_true rfl h3
    · exact iff_of_false (by decide) h3
    · exact iff_of_false (by decide) h3
  · unfold classify_sil_from_pfh
    split_ifs with h1 h2 h3 h4
    · refine iff_of_false (by decide) ?_
      rintro ⟨hle, -⟩
      rcases h1 with ⟨-, hlt⟩
      linarith
    · refine iff_of_false (by decide) ?_
      rintro ⟨hle, -⟩
      rcases h2 with ⟨-, hlt⟩
      linarith
    · refine iff_of_false (by decide) ?_
      rintro ⟨hle, -⟩
      exact absurd hle (not_le.mpr h3.2)
    · exact iff_of_true rfl h4
    · exact iff_of_false (by decide) h4
  · unfold classify_sil_from_pfh
    split_ifs with h1 h2 h3 h4
    · exact iff_of_false (by decide)
        (not_not_intro ⟨by linarith [h1.1], by linarith [h1.2]⟩)
    · exact iff_of_false (by decide)
        (not_not_intro ⟨by linarith [h2.1], by linarith [h2.2]⟩)
    · exact iff_of_false (by decide)
        (not_not_intro ⟨by linarith [h3.1], by linarith [h3.2]⟩)
    · exact iff_of_false (by decide)
        (not_not_intro ⟨by linarith [h4.1], by linarith [h4.2]⟩)
    · refine iff_of_true rfl ?_
      rintro ⟨hle, hlt⟩
      rcases lt_or_le x (1 / 10 ^ 8) with hx | hx
      · exact h1 ⟨hle, hx⟩
      · rcases lt_or_le x (1 / 10 ^ 7) with hy | hy
        · exact h2 ⟨hx, hy⟩
        · rcases lt_or_le x (1 / 10 ^ 6) with hz | hz
          · exact h3 ⟨hy, hz⟩
          · exact h4 ⟨hz, hlt⟩
  · unfold classify_sil_from_pfd
    split_ifs with h1 h2 h3 h4
    · exact iff_of_true rfl h1
    · exact iff_of_false (by decide) h1
    · exact iff_of_false (by decide) h1
    · exact iff_of_false (by decide) h1
    · exact iff_of_false (by decide) h1
  · unfold classify_sil_from_pfd
    split_ifs with h1 h2 h3 h4
    · refine iff_of_false (by decide) ?_
      rintro ⟨hle, -⟩
      exact absurd hle (not_le.mpr h1.2)
    · exact iff_of_true rfl h2
    · exact iff_of_false (by decide) h2
    · exact iff_of_false (by decide) h2
    · exact iff_of_false (by decide) h2
  · unfold classify_sil_from_pfd
    split_ifs with h1 h2 h3 h4
    · refine iff_of_false (by decide) ?_
      rintro ⟨hle, -⟩
      rcases h1 with ⟨-, hlt⟩
      linarith
    · refine iff_of_false (by decide) ?_
      rintro ⟨hle, -⟩
      exact absurd hle (not_le.mpr h2.2)
    · exact iff_of_true rfl h3
    · exact iff_of_false (by decide) h3
    · exact iff_of_false (by decide) h3
  · unfold classify_sil_from_pfd
    split_ifs with h1 h2 h3 h4
    · refine iff_of_false (by decide) ?_
      rintro ⟨hle, -⟩
      rcases h1 with ⟨-, hlt⟩
      linarith
    · refine iff_of_false (by decide) ?_
      rintro ⟨hle, -⟩
      rcases h2 with ⟨-, hlt⟩
      linarith
    · refine iff_of_false (by decide) ?_
      rintro ⟨hle, -⟩
      exact absurd hle (not_le.mpr h3.2)
    · exact iff_of_true rfl h4
    · exact iff_of_false (by decide) h4
  · unfold classify_sil_from_pfd
    split_ifs with h1 h2 h3 h4
    · exact iff_of_false (by decide)
        (not_not_intro ⟨by linarith [h1.1], by linarith [h1.2]⟩)
    · exact iff_of_false (by decide)
        (not_not_intro ⟨by linarith [h2.1], by linarith [h2.2]⟩)
    · exact iff_of_false (by decide)
        (not_not_intro ⟨by linarith [h3.1], by linarith [h3.2]⟩)
    · exact iff_of_false (by decide)
        (not_not_intro ⟨by linarith [h4.1], by linarith [h4.2]⟩)
    · refine iff_of_true rfl ?_
      rintro ⟨hle, hlt⟩
      rcases lt_or_le x (1 / 10 ^ 4) with hx | hx
      · exact h1 ⟨hle, hx⟩
      · rcases lt_or_le x (1 / 10 ^ 3) with hy | hy
        · exact h2 ⟨hx, hy⟩
        · rcases lt_or_le x (1 / 10 ^ 2) with hz | hz
          · exact h3 ⟨hy, hz⟩
          · exact h4 ⟨hz, hlt⟩
  · norm_num [classify_sil_from_pfh]
  · norm_num [classify_sil_from_pfh]
  · norm_num [classify_sil_from_pfd]
  · norm_num [classify_sil_from_pfd]

/-- An entry payload in one of the three lanes of `_sum_lists`: either a
plain component record or a 1oo2 group of member records (the
`ud.get('group') and ud.get('architecture') == '1oo2'` case, with members
already filtered to dicts). -/
inductive Payload
  | single (raw : RawRecord)
  | group (members : List RawRecord)
deriving DecidableEq

/-- A lane entry: its payload plus the effective cross-lane link tag.  The
GUI-side normalisation of `link_group_id`/`link_color` in `_sum_lists` only
rewrites this tag before bucketing; the theorems below quantify over all tag
assignments, which covers every normalisation outcome. -/
structure Entry where
  payload : Payload
  link_group_id : Option String
deriving DecidableEq

/-- Member lambda as `_group_metrics` computes it: a failing conversion is
recorded as an error and the member's lambda is substituted with `0.0`. -/
def member_lambda (mode : String) (a : Assumptions) (raw : RawRecord) : ℚ :=
  match compute_lambda_total raw mode a with
  | .ok (lam, _) => lam
  | .error _ => 0

/-- Metric part of `sifu_gui.MainWindow._group_metrics`: every member's
lambda (with `0.0` substituted on conversion failure) is passed to
`calculate_one_out_of_two`. -/
def group_metrics (members : List RawRecord) (du_ratio dd_ratio : ℚ)
    (mode : String) (a : Assumptions) : Except Unit ChannelMetrics :=
  calculate_one_out_of_two (members.map (member_lambda mode a)) du_ratio dd_ratio a

/-- Metric part of `sifu_gui.MainWindow._component_metrics`: a
`ConversionError` is returned as a value (`.ok none`, leading `_sum_lists` to
skip the entry), while a ratio `ValueError` from `calculate_single_channel`
propagates. -/
def component_metrics (raw : RawRecord) (du_ratio dd_ratio : ℚ)
    (mode : String) (a : Assumptions) : Except Unit (Option ChannelMetrics) :=
  match compute_lambda_total raw mode a with
  | .error _ => .ok none
  | .ok (lam, _) =>
      match calculate_single_channel lam du_ratio dd_ratio a with
      | .error e => .error e
      | .ok m => .ok (some m)

/-- Metrics of one entry as `_sum_lists` resolves it: `.ok none` means the
entry failed conversion and is skipped; a group entry always yields metrics
(failing members enter as lambda `0.0`). -/
def resolve_entry (du_ratio dd_ratio : ℚ) (mode : String) (a : Assumptions) :
    Payload → Except Unit (Option ChannelMetrics)
  | .single raw => component_metrics raw du_ratio dd_ratio mode a
  | .group members =>
      match group_metrics members du_ratio dd_ratio mode a with
      | .error e => .error e
      | .ok m => .ok (some m)

/-- Running totals of one bucket (the `pfd`/`pfh`/`lambda_du`/`lambda_dd`
keys of the bucket dictionaries in `_sum_lists`). -/
structure Totals where
  pfd : ℚ
  pfh : ℚ
  lambda_du : ℚ
  lambda_dd : ℚ
deriving DecidableEq

def Totals.zero : Totals := ⟨0, 0, 0, 0⟩

/-- The four `+=` statements performed on a bucket for one entry. -/
def Totals.add (t : Totals) (m : ChannelMetrics) : Totals :=
  ⟨t.pfd + m.pfd, t.pfh + m.pfh, t.lambda_du + m.lambda_du, t.lambda_dd + m.lambda_dd⟩

/-- The three lanes iterated by `_sum_lists`, in source order. -/
inductive Lane
  | sensor
  | logic
  | actuator
deriving DecidableEq

/-- Aggregation state of `_sum_lists`: `subgroup_totals` (keyed by
`link_group_id`, insertion ordered like the Python dict) and `lane_totals`
for the three lane residuals. -/
structure SumState where
  subgroups : List (String × Totals)
  sensor : Totals
  logic : Totals
  actuator : Totals
deriving DecidableEq

def SumState.init : SumState := ⟨[], .zero, .zero, .zero⟩

/-- `subgroup_totals.setdefault(gid, zeros)` followed by the `+=` updates. -/
def bump_subgroup : List (String × Totals) → String → ChannelMetrics →
    List (String × Totals)
  | [], gid, m => [(gid, Totals.zero.add m)]
  | (k, t) :: rest, gid, m =>
      if k = gid then (k, t.add m) :: rest
      else (k, t) :: bump_subgroup rest gid m

def SumState.add_to_lane (st : SumState) (lane : Lane) (m : ChannelMetrics) :
    SumState :=
  match lane with
  | .sensor => { st with sensor := st.sensor.add m }
  | .logic => { st with logic := st.logic.add m }
  | .actuator => { st with actuator := st.actuator.add m }

/-- Bucketing of one resolved entry: a tagged entry is added to its link
subgroup's totals, an untagged one to its lane's residual totals. -/
def SumState.add_entry (st : SumState) (lane : Lane) (e : Entry)
    (m : ChannelMetrics) : SumState :=
  match e.link_group_id with
  | some gid => { st with subgroups := bump_subgroup st.subgroups gid m }
  | none => st.add_to_lane lane m

/-- One lane's loop of `_sum_lists`: entries failing conversion are skipped,
resolved metrics are bucketed, a ratio error propagates. -/
def sum_lane (du_ratio dd_ratio : ℚ) (mode : String) (a : Assumptions)
    (lane : Lane) : List Entry → SumState → Except Unit SumState
  | [], st => .ok st
  | e :: rest, st =>
      match resolve_entry du_ratio dd_ratio mode a e.payload with
      | .error er => .error er
      | .ok none => sum_lane du_ratio dd_ratio mode a lane rest st
      | .ok (some m) =>
          sum_lane du_ratio dd_ratio mode a lane rest (st.add_entry lane e m)

/-- Per-lane DU/DD ratio table (the `self._ratios(group)` lookups). -/
structure Ratios where
  sensor_du : ℚ
  sensor_dd : ℚ
  logic_du : ℚ
  logic_dd : ℚ
  actuator_du : ℚ
  actuator_dd : ℚ
deriving DecidableEq

/-- Grand-total PFD read off a final state: every subgroup bucket plus every
lane residual (`pfd_sum` accumulation at the end of `_sum_lists`; lanes are
added whether or not they are non-zero). -/
def SumState.grand_pfd (st : SumState) : ℚ :=
  (st.subgroups.map fun p => p.2.pfd).sum
    + st.sensor.pfd + st.logic.pfd + st.actuator.pfd

/-- Grand-total PFH read off a final state. -/
def SumState.grand_pfh (st : SumState) : ℚ :=
  (st.subgroups.map fun p => p.2.pfh).sum
    + st.sensor.pfh + st.logic.pfh + st.actuator.pfh

/-- Embedding of `sifu_gui.MainWindow._sum_lists`: the three lanes are folded
in source order, then the grand totals are the sum of all subgroup buckets
plus all lane residuals.  The returned state is the breakdown. -/
def sum_lists (sensors logics actuators : List Entry) (rt : Ratios)
    (mode : String) (a : Assumptions) : Except Unit (ℚ × ℚ × SumState) :=
  match sum_lane rt.sensor_du rt.sensor_dd mode a .sensor sensors .init with
  | .error e => .error e
  | .ok st1 =>
  match sum_lane rt.logic_du rt.logic_dd mode a .logic logics st1 with
  | .error e => .error e
  | .ok st2 =>
  match sum_lane rt.actuator_du rt.actuator_dd mode a .actuator actuators st2 with
  | .error e => .error e
  | .ok st3 => .ok (st3.grand_pfd, st3.grand_pfh, st3)

/-- Grand totals of `_sum_lists`, dropping the breakdown. -/
def grand_totals (sensors logics actuators : List Entry) (rt : Ratios)
    (mode : String) (a : Assumptions) : Except Unit (ℚ × ℚ) :=
  match sum_lists sensors logics actuators rt mode a with
  | .error e => .error e
  | .ok (pfd, pfh, _) => .ok (pfd, pfh)

/-- Tag-independent reference sum for one lane: the plain sum of the resolved
metrics of its payloads, skipping entries that fail conversion. -/
def plain_lane_sum (du_ratio dd_ratio : ℚ) (mode : String) (a : Assumptions) :
    List Payload → Except Unit (ℚ × ℚ)
  | [] => .ok (0, 0)
  | p :: rest =>
      match resolve_entry du_ratio dd_ratio mode a p with
      | .error er => .error er
      | .ok none => plain_lane_sum du_ratio dd_ratio mode a rest
      | .ok (some m) =>
          match plain_lane_sum du_ratio dd_ratio mode a rest with
          | .error er => .error er
          | .ok (pfd, pfh) => .ok (m.pfd + pfd, m.pfh + pfh)

/-- Tag-independent reference for the grand totals: the plain sums of the
three lanes' resolved entries, with no partition involved. -/
def plain_totals (sensors logics actuators : List Payload) (rt : Ratios)
    (mode : String) (a : Assumptions) : Except Unit (ℚ × ℚ) :=
  match plain_lane_sum rt.sensor_du rt.sensor_dd mode a sensors with
  | .error e => .error e
  | .ok (p1, h1) =>
  match plain_lane_sum rt.logic_du rt.logic_dd mode a logics with
  | .error e => .error e
  | .ok (p2, h2) =>
  match plain_lane_sum rt.actuator_du rt.actuator_dd mode a actuators with
  | .error e => .error e
  | .ok (p3, h3) => .ok (p1 + p2 + p3, h1 + h2 + h3)

theorem bump_subgroup_pfd (l : List (String × Totals)) (gid : String)
    (m : ChannelMetrics) :
    ((bump_subgroup l gid m).map fun p => p.2.pfd).sum =
      (l.map fun p => p.2.pfd).sum + m.pfd := by
  induction l with
  | nil => simp [bump_subgroup, Totals.add, Totals.zero]
  | cons hd tl ih =>
      rcases hd with ⟨k, t⟩
      by_cases hk : k = gid
      · simp only [bump_subgroup, if_pos hk, List.map_cons, List.sum_cons, Totals.add]
        ring
      · simp only [bump_subgroup, if_neg hk, List.map_cons, List.sum_cons, ih]
        ring

theorem bump_subgroup_pfh (l : List (String × Totals)) (gid : String)
    (m : ChannelMetrics) :
    ((bump_subgroup l gid m).map fun p => p.2.pfh).sum =
      (l.map fun p => p.2.pfh).sum + m.pfh := by
  induction l with
  | nil => simp [bump_subgroup, Totals.add, Totals.zero]
  | cons hd tl ih =>
      rcases hd with ⟨k, t⟩
      by_cases hk : k = gid
      · simp only [bump_subgroup, if_pos hk, List.map_cons, List.sum_cons, Totals.add]
        ring
      · simp only [bump_subgroup, if_neg hk, List.map_cons, List.sum_cons, ih]
        ring

/-- Adding one entry's metrics to the state raises both grand totals by
exactly those metrics, whichever bucket the tag selects. -/
theorem add_entry_grand (st : SumState) (lane : Lane) (e : Entry)
    (m : ChannelMetrics) :
    (st.add_entry lane e m).grand_pfd = st.grand_pfd + m.pfd ∧
    (st.add_entry lane e m).grand_pfh = st.grand_pfh + m.pfh := by
  rcases e with ⟨p, gid⟩
  cases gid with
  | none =>
      cases lane <;>
        refine ⟨?_, ?_⟩ <;>
          simp [SumState.add_entry, SumState.add_to_lane, SumState.grand_pfd,
            SumState.grand_pfh, Totals.add] <;>
          ring
  | some g =>
      refine ⟨?_, ?_⟩ <;>
        simp [SumState.add_entry, SumState.grand_pfd, SumState.grand_pfh,
          bump_subgroup_pfd, bump_subgroup_pfh] <;>
        ring

/-- The grand totals produced by one lane's fold equal the starting grand
totals plus the lane's tag-free plain sum (and errors coincide). -/
theorem sum_lane_vs_plain (du dd : ℚ) (mode : String) (a : Assumptions)
    (lane : Lane) (entries : List Entry) :
    ∀ st : SumState,
      (sum_lane du dd mode a lane entries st).map
          (fun s => (s.grand_pfd, s.grand_pfh)) =
        (plain_lane_sum du dd mode a (entries.map Entry.payload)).map
          (fun pq => (st.grand_pfd + pq.1, st.grand_pfh + pq.2)) := by
  induction entries with
  | nil => intro st; simp [sum_lane, plain_lane_sum, Except.map]
  | cons e rest ih =>
      intro st
      rcases hres : resolve_entry du dd mode a e.payload with er | om
      · simp [sum_lane, plain_lane_sum, hres, Except.map]
      · rcases om with _ | m
        · have ihs := ih st
          simpa [sum_lane, plain_lane_sum, hres] using ihs
        · have ihs := ih (st.add_entry lane e m)
          have hadd := add_entry_grand st lane e m
          rcases hp : plain_lane_sum du dd mode a (rest.map Entry.payload)
            with er | pq
          · rw [hp] at ihs
            rcases hs : sum_lane du dd mode a lane rest (st.add_entry lane e m)
              with er2 | st2
            · simp [sum_lane, plain_lane_sum, hres, hp, hs, Except.map]
            · rw [hs] at ihs
              simp [Except.map] at ihs
          · rw [hp] at ihs
            rcases pq with ⟨p, q⟩
            rcases hs : sum_lane du dd mode a lane rest (st.add_entry lane e m)
              with er2 | st2
            · rw [hs] at ihs
              simp [Except.map] at ihs
            · rw [hs] at ihs
              simp only [Except.map, Except.ok.injEq, Prod.mk.injEq] at ihs
              simp only [sum_lane, plain_lane_sum, hres, hp, hs, Except.map,
                Except.ok.injEq, Prod.mk.injEq]
              refine ⟨?_, ?_⟩
              · rw [ihs.1, hadd.1]; ring
              · rw [ihs.2, hadd.2]; ring

theorem init_grand_pfd : SumState.init.grand_pfd = 0 := by
  simp [SumState.init, SumState.grand_pfd, Totals.zero]

theorem init_grand_pfh : SumState.init.grand_pfh = 0 := by
  simp [SumState.init, SumState.grand_pfh, Totals.zero]

/-- The grand totals of `_sum_lists` equal the tag-free plain sums of all
resolved entries, for every tag assignment. -/
theorem grand_totals_eq_plain (sensors logics actuators : List Entry)
    (rt : Ratios) (mode : String) (a : Assumptions) :
    grand_totals sensors logics actuators rt mode a =
      plain_totals (sensors.map Entry.payload) (logics.map Entry.payload)
        (actuators.map Entry.payload) rt mode a := by
  have H1 := sum_lane_vs_plain rt.sensor_du rt.sensor_dd mode a .sensor sensors
    SumState.init
  rcases hs1 : sum_lane rt.sensor_du rt.sensor_dd mode a .sensor sensors .init
    with e1 | st1 <;> rw [hs1] at H1
  · rcases hp1 : plain_lane_sum rt.sensor_du rt.sensor_dd mode a
        (sensors.map Entry.payload) with eb1 | pq1 <;> rw [hp1] at H1
    · unfold grand_totals sum_lists plain_totals
      cases e1; cases eb1
      simp only [hs1, hp1]
    · simp [Except.map] at H1
  · rcases hp1 : plain_lane_sum rt.sensor_du rt.sensor_dd mode a
        (sensors.map Entry.payload) with eb1 | pq1 <;> rw [hp1] at H1
    · simp [Except.map] at H1
    · rcases pq1 with ⟨p1, q1⟩
      simp only [Except.map, Except.ok.injEq, Prod.mk.injEq, init_grand_pfd,
        init_grand_pfh, zero_add] at H1
      have H2 := sum_lane_vs_plain rt.logic_du rt.logic_dd mode a .logic logics st1
      rcases hs2 : sum_lane rt.logic_du rt.logic_dd mode a .logic logics st1
        with e2 | st2 <;> rw [hs2] at H2
      · rcases hp2 : plain_lane_sum rt.logic_du rt.logic_dd mode a
            (logics.map Entry.payload) with eb2 | pq2 <;> rw [hp2] at H2
        · unfold grand_totals sum_lists plain_totals
          cases e2; cases eb2
          simp only [hs1, hp1, hs2, hp2]
        · simp [Except.map] at H2
      · rcases hp2 : plain_lane_sum rt.logic_du rt.logic_dd mode a
            (logics.map Entry.payload) with eb2 | pq2 <;> rw [hp2] at H2
        · simp [Except.map] at H2
        · rcases pq2 with ⟨p2, q2⟩
          simp only [Except.map, Except.ok.injEq, Prod.mk.injEq] at H2
          have H3 := sum_lane_vs_plain rt.actuator_du rt.actuator_dd mode a
            .actuator actuators st2
          rcases hs3 : sum_lane rt.actuator_du rt.actuator_dd mode a .actuator
              actuators st2 with e3 | st3 <;> rw [hs3] at H3
          · rcases hp3 : plain_lane_sum rt.actuator_du rt.actuator_dd mode a
                (actuators.map Entry.payload) with eb3 | pq3 <;> rw [hp3] at H3
            · unfold grand_totals sum_lists plain_totals
              cases e3; cases eb3
              simp only [hs1, hp1, hs2, hp2, hs3, hp3]
            · simp [Except.map] at H3
          · rcases hp3 : plain_lane_sum rt.actuator_du rt.actuator_dd mode a
                (actuators.map Entry.payload) with eb3 | pq3 <;> rw [hp3] at H3
            · simp [Except.map] at H3
            · rcases pq3 with ⟨p3, q3⟩
              simp only [Except.map, Except.ok.injEq, Prod.mk.injEq] at H3
              unfold grand_totals sum_lists plain_totals
              simp only [hs1, hp1, hs2, hp2, hs3, hp3, Except.ok.injEq,
                Prod.mk.injEq]
              refine ⟨?_, ?_⟩
              · rw [H3.1, H2.1, H1.1]
              · rw [H3.2, H2.2, H1.2]

/-- C1: partition invariance of `_sum_lists`.  The grand totals equal the
plain tag-free sum of every resolved entry's metrics, so any two tag
assignments over the same payloads produce the same grand totals — the
partition into link subgroups and lane residuals changes only the
breakdown. -/
theorem sum_lists_partition_invariance
    (sA lA aA sB lB aB : List Entry) (rt : Ratios) (mode : String)
    (a : Assumptions)
    (hs : sA.map Entry.payload = sB.map Entry.payload)
    (hl : lA.map Entry.payload = lB.map Entry.payload)
    (ha : aA.map Entry.payload = aB.map Entry.payload) :
    grand_totals sA lA aA rt mode a =
        plain_totals (sA.map Entry.payload) (lA.map Entry.payload)
          (aA.map Entry.payload) rt mode a ∧
    grand_totals sA lA aA rt mode a = grand_totals sB lB aB rt mode a := by
  refine ⟨grand_totals_eq_plain sA lA aA rt mode a, ?_⟩
  rw [grand_totals_eq_plain sA lA aA rt mode a,
    grand_totals_eq_plain sB lB aB rt mode a, hs, hl, ha]

/-- Witness for C1: the same single-component sensor lane, once tagged into a
link subgroup and once untagged, yields identical grand totals, equal to the
plain sum. -/
theorem sum_lists_partition_invariance_witness :
    ([⟨.single { lambda_total := .num 5 }, some "g"⟩] : List Entry).map
        Entry.payload =
      ([⟨.single { lambda_total := .num 5 }, none⟩] : List Entry).map
        Entry.payload ∧
    (grand_totals [⟨.single { lambda_total := .num 5 }, some "g"⟩] [] []
          ⟨1, 1, 1, 1, 1, 1⟩ "low_demand" ⟨8760, 8, 0, 0⟩ =
        plain_totals [.single { lambda_total := .num 5 }] [] []
          ⟨1, 1, 1, 1, 1, 1⟩ "low_demand" ⟨8760, 8, 0, 0⟩ ∧
      grand_totals [⟨.single { lambda_total := .num 5 }, some "g"⟩] [] []
          ⟨1, 1, 1, 1, 1, 1⟩ "low_demand" ⟨8760, 8, 0, 0⟩ =
        grand_totals [⟨.single { lambda_total := .num 5 }, none⟩] [] []
          ⟨1, 1, 1, 1, 1, 1⟩ "low_demand" ⟨8760, 8, 0, 0⟩) :=
  ⟨rfl,
    sum_lists_partition_invariance
      [⟨.single { lambda_total := .num 5 }, some "g"⟩] [] []
      [⟨.single { lambda_total := .num 5 }, none⟩] [] []
      ⟨1, 1, 1, 1, 1, 1⟩ "low_demand" ⟨8760, 8, 0, 0⟩ rfl rfl rfl⟩

/-- C6: conversion-error containment in aggregation.  A single-component
entry whose record fails `compute_lambda_total` is skipped: every lane fold,
and the whole `_sum_lists` pass, returns exactly what it returns with the
entry removed, so the failing component contributes nothing to any running
total and no exception crosses the resolver boundary.  (The reporting itself
is a status-bar/stderr side effect outside the numeric model; containment
and exclusion are what is provable.) -/
theorem conversion_error_containment
    (pre post logics actuators : List Entry) (raw : RawRecord)
    (gid : Option String) (rt : Ratios) (mode : String) (a : Assumptions)
    (hfail : ∃ e, compute_lambda_total raw mode a = .error e) :
    (∀ (du dd : ℚ) (lane : Lane) (st : SumState),
        sum_lane du dd mode a lane (pre ++ ⟨.single raw, gid⟩ :: post) st =
          sum_lane du dd mode a lane (pre ++ post) st) ∧
    sum_lists (pre ++ ⟨.single raw, gid⟩ :: post) logics actuators rt mode a =
      sum_lists (pre ++ post) logics actuators rt mode a := by
  obtain ⟨e, he⟩ := hfail
  have hskip : ∀ (du dd : ℚ) (lane : Lane) (st : SumState),
      sum_lane du dd mode a lane (pre ++ ⟨.single raw, gid⟩ :: post) st =
        sum_lane du dd mode a lane (pre ++ post) st := by
    intro du dd lane
    induction pre with
    | nil =>
        intro st
        simp only [List.nil_append, sum_lane, resolve_entry,
          component_metrics, he]
    | cons hd tl ih =>
        intro st
        simp only [List.cons_append, sum_lane]
        rcases hres : resolve_entry du dd mode a hd.payload with er | om
        · rfl
        · rcases om with _ | m
          · exact ih st
          · exact ih (st.add_entry lane hd m)
  refine ⟨hskip, ?_⟩
  unfold sum_lists
  rw [hskip rt.sensor_du rt.sensor_dd .sensor SumState.init]

/-- Witness for C6: an empty record fails low-demand conversion; the lane
containing it sums exactly like the empty lane. -/
theorem conversion_error_containment_witness :
    sum_lists [⟨.single {}, none⟩] [] [] ⟨1, 1, 1, 1, 1, 1⟩ "low_demand"
        ⟨8760, 8, 0, 0⟩ =
      sum_lists [] [] [] ⟨1, 1, 1, 1, 1, 1⟩ "low_demand" ⟨8760, 8, 0, 0⟩ :=
  (conversion_error_containment [] [] [] [] {} none ⟨1, 1, 1, 1, 1, 1⟩
      "low_demand" ⟨8760, 8, 0, 0⟩ ⟨.missing_pfd, rfl⟩).2

/-- C10: a 1oo2 group member that fails conversion is substituted with
lambda `0.0` (the error is recorded), `calculate_one_out_of_two` still runs
over the substituted list, and — with valid ratios — the group entry is
still included in its bucket and in the grand totals with the remaining
member's lambda. -/
theorem group_member_error_substitution
    (m1 m2 : RawRecord) (du dd : ℚ) (mode : String) (a : Assumptions)
    (hfail : ∃ e, compute_lambda_total m1 mode a = .error e)
    (lam : ℚ) (prov : String)
    (hok : compute_lambda_total m2 mode a = .ok (lam, prov)) :
    resolve_entry du dd mode a (.group [m1, m2]) =
      (match calculate_one_out_of_two [0, lam] du dd a with
       | .error e => .error e
       | .ok m => .ok (some m)) ∧
    (0 < du + dd → ∀ gid : String, ∃ m : ChannelMetrics,
        calculate_one_out_of_two [0, lam] du dd a = .ok m ∧
        grand_totals [⟨.group [m1, m2], some gid⟩] [] []
            ⟨du, dd, du, dd, du, dd⟩ mode a = .ok (m.pfd, m.pfh)) := by
  obtain ⟨e, he⟩ := hfail
  have hmem : [m1, m2].map (member_lambda mode a) = [0, lam] := by
    simp [member_lambda, he, hok]
  have hres : resolve_entry du dd mode a (.group [m1, m2]) =
      (match calculate_one_out_of_two [0, lam] du dd a with
       | .error e => .error e
       | .ok m => .ok (some m)) := by
    simp only [resolve_entry, group_metrics, hmem]
  refine ⟨hres, ?_⟩
  intro hr gid
  have hcalc : ∃ m, calculate_one_out_of_two [0, lam] du dd a = .ok m := by
    simp only [calculate_one_out_of_two, split_lambda]
    rw [if_neg (not_le.mpr hr)]
    exact ⟨_, rfl⟩
  obtain ⟨m, hm⟩ := hcalc
  refine ⟨m, hm, ?_⟩
  have hg := add_entry_grand SumState.init .sensor ⟨.group [m1, m2], some gid⟩ m
  unfold grand_totals sum_lists
  simp only [sum_lane, hres, hm, Except.ok.injEq, Prod.mk.injEq]
  exact ⟨by rw [hg.1, init_grand_pfd, zero_add],
    by rw [hg.2, init_grand_pfh, zero_add]⟩

/-- Witness for C10: first member empty (fails), second carries
`lambda_total = 4`; the group contributes `calculate_one_out_of_two [0, 4]`
to the totals. -/
theorem group_member_error_substitution_witness :
    resolve_entry 1 1 "low_demand" ⟨8760, 8, 0, 0⟩
        (.group [{}, { lambda_total := .num 4 }]) =
      (match calculate_one_out_of_two [0, 4] 1 1 ⟨8760, 8, 0, 0⟩ with
       | .error e => .error e
       | .ok m => .ok (some m)) ∧
    (∃ m : ChannelMetrics,
        calculate_one_out_of_two [0, 4] 1 1 ⟨8760, 8, 0, 0⟩ = .ok m ∧
        grand_totals [⟨.group [{}, { lambda_total := .num 4 }], some "g"⟩] [] []
            ⟨1, 1, 1, 1, 1, 1⟩ "low_demand" ⟨8760, 8, 0, 0⟩ =
          .ok (m.pfd, m.pfh)) :=
  have h := group_member_error_substitution {} { lambda_total := .num 4 } 1 1
    "low_demand" ⟨8760, 8, 0, 0⟩ ⟨.missing_pfd, rfl⟩ 4 "native" rfl
  ⟨h.1, h.2 (by norm_num) "g"⟩

end FusaCalc
